import Mathlib

/-!
Verification of the argument-resolution behaviour of the clap-examples
repository.  Definitions are shallow embeddings of the Rust source:

* `EnvConfig`  — example 08 (`08-environment-config/src/main.rs`),
  the `ResolvedConfig::from_cli_and_file` merging logic;
* `Cloudctl`   — example 12 (`12-real-world-project/src/config.rs`),
  `Config::with_profile`;
* `Engine`     — the argument-resolution engine configured (but not
  implemented) by the examples; the engine itself lives in the external
  `clap` crate, so these definitions are modelled from the spec.
-/

namespace EnvConfig

/-- Environment-variable state read by `ResolvedConfig::from_cli_and_file`
(example 08, `main.rs` lines 270 and 285).  The code checks
`std::env::var("APP_PORT").is_ok() || std::env::var("MYAPP_PORT").is_ok()`
(and the `HOST` analogues); only `APP_PORT` / `APP_HOST` are wired to clap
via `#[arg(env = ...)]`. -/
structure EnvState where
  appPort : Option Nat
  myappPort : Option Nat
  appHost : Option String
  myappHost : Option String
deriving DecidableEq

/-- clap's own resolution of the `port` field of `Cli` (attribute
`#[arg(short, long, env = "APP_PORT", default_value_t = 8080)]`, line 124):
explicit CLI token, else the `APP_PORT` environment variable, else 8080. -/
def clapPort (cliToken : Option Nat) (env : EnvState) : Nat :=
  match cliToken with
  | some v => v
  | none =>
    match env.appPort with
    | some v => v
    | none => 8080

/-- clap's own resolution of the `host` field of `Cli` (attribute
`#[arg(long, env = "APP_HOST", default_value = "localhost")]`, line 118). -/
def clapHost (cliToken : Option String) (env : EnvState) : String :=
  match cliToken with
  | some v => v
  | none =>
    match env.appHost with
    | some v => v
    | none => "localhost"

/-- The `port` arm of `ResolvedConfig::from_cli_and_file`
(`main.rs` lines 284-297).  Input `cliPort` is the already-clap-resolved
`cli.port`; returns the resolved port and the `sources.port` string. -/
def portFromCliAndFile (cliPort : Nat) (env : EnvState) (filePort : Option Nat) :
    Nat × String :=
  if env.appPort.isSome || env.myappPort.isSome then (cliPort, "env")
  else if cliPort ≠ 8080 then (cliPort, "cli")
  else
    match filePort with
    | some p => (p, "config file")
    | none => (cliPort, "default")

/-- The `host` arm of `ResolvedConfig::from_cli_and_file`
(`main.rs` lines 267-282). -/
def hostFromCliAndFile (cliHost : String) (env : EnvState) (fileHost : Option String) :
    String × String :=
  if env.appHost.isSome || env.myappHost.isSome then (cliHost, "env")
  else if cliHost ≠ "localhost" then (cliHost, "cli")
  else
    match fileHost with
    | some h => (h, "config file")
    | none => (cliHost, "default")

/-- End-to-end resolution of `port`: clap first (CLI token > `APP_PORT` env >
default 8080), then `from_cli_and_file`'s source attribution and config-file
layering. -/
def resolvePort (cliToken : Option Nat) (env : EnvState) (filePort : Option Nat) :
    Nat × String :=
  portFromCliAndFile (clapPort cliToken env) env filePort

/-- End-to-end resolution of `host`. -/
def resolveHost (cliToken : Option String) (env : EnvState) (fileHost : Option String) :
    String × String :=
  hostFromCliAndFile (clapHost cliToken env) env fileHost

/-- File-config feature flags (`FeatureFlags`, `main.rs` lines 76-82). -/
structure FeatureFlags where
  enable_cache : Option Bool
  enable_metrics : Option Bool
  enable_tracing : Option Bool
deriving DecidableEq

/-- One feature-flag merge from `from_cli_and_file` (`main.rs` lines 315-321):
`cli.enable_cache || file.features.enable_cache.unwrap_or(false)` and the two
analogues. -/
def mergeFeature (cliFlag : Bool) (fileFlag : Option Bool) : Bool :=
  cliFlag || fileFlag.getD false

/-- The three feature flags of `ResolvedConfig`, merged exactly as in
`from_cli_and_file` lines 315-321. -/
def mergeFeatures (cliCache cliMetrics cliTracing : Bool) (file : FeatureFlags) :
    Bool × Bool × Bool :=
  (mergeFeature cliCache file.enable_cache,
   mergeFeature cliMetrics file.enable_metrics,
   mergeFeature cliTracing file.enable_tracing)

end EnvConfig

namespace Cloudctl

/-- `Profile` (`config.rs` lines 32-46). -/
structure Profile where
  project : Option String
  region : Option String
  zone : Option String
  endpoint : Option String
deriving DecidableEq

/-- `CloudError` (`error.rs`); only the variants reachable from `config.rs`
are carried with their payloads. -/
inductive CloudError where
  | NotFound (resource_type : String) (name : String)
  | InvalidArgument (msg : String)
  | ConfigErr (message : String)
deriving DecidableEq

/-- `Config` (`config.rs` lines 8-29).  The `HashMap<String, Profile>` of
profiles is modelled as an association list; `HashMap::get` becomes
`List.lookup`. -/
structure Config where
  project : Option String
  region : Option String
  zone : Option String
  endpoint : Option String
  output_format : Option String
  profiles : List (String × Profile)
deriving DecidableEq

/-- `Config::with_profile` (`config.rs` lines 120-141): clone the base config
and overwrite `project`, `region`, `zone`, `endpoint` only when the profile
sets them to `Some`; unknown profile name yields
`CloudError::not_found("profile", name)`. -/
def Config.with_profile (c : Config) (profile_name : String) :
    Except CloudError Config :=
  match c.profiles.lookup profile_name with
  | some profile =>
      .ok { c with
        project := if profile.project.isSome then profile.project else c.project,
        region := if profile.region.isSome then profile.region else c.region,
        zone := if profile.zone.isSome then profile.zone else c.zone,
        endpoint := if profile.endpoint.isSome then profile.endpoint else c.endpoint }
  | none => .error (CloudError.NotFound "profile" profile_name)

end Cloudctl

namespace Engine

/-- Modelled from the spec: the `ParseError` taxonomy of section 7.  The
engine producing these errors is the external clap crate, configured but not
implemented in the repository. -/
inductive ParseError where
  | SchemaConflict
  | UnknownArgument (token : String)
  | MissingValue (identifier : String)
  | DuplicateArgument (identifier : String)
  | MissingRequiredArgument (identifier : String)
  | MissingRequiredGroup (group : String)
  | ConflictingArguments (a : String) (b : String)
  | MissingDependency (present : String) (missing : List String)
  | InvalidValue (identifier : String) (raw : String) (reason : String)
deriving DecidableEq

/-- Modelled from the spec: `value_kind` of an ArgumentSpec, restricted to the
kinds the claims exercise — plain strings and integers with an optional
declared range (`min..=max` or `min..`). -/
inductive ValueKind where
  | str
  | int (lo : Option Nat) (hi : Option Nat)
deriving DecidableEq

/-- Modelled from the spec: `ArgumentSpec` for a Named argument (section 3).
`takesValue = false` is the `SetTrueOnPresence` boolean-flag case; bindings
use Append semantics, so repeated flags accumulate. -/
structure ArgumentSpec where
  identifier : String
  longFlag : String
  takesValue : Bool
  valueKind : ValueKind
  required : Bool
  envFallback : Option String
  defaultVal : Option String
  delimiter : Option Char
deriving DecidableEq

/-- Modelled from the spec: `GroupSpec` kinds (section 3). -/
inductive GroupSpec where
  | MutuallyExclusive (name : String) (members : List String) (required : Bool)
  | RequiresAll (members : List String)
  | ConflictsWith (a : String) (b : String)
deriving DecidableEq

/-- Modelled from the spec: a single-command schema (no subcommand tree is
needed for the claims). -/
structure Schema where
  args : List ArgumentSpec
  groups : List GroupSpec
deriving DecidableEq

/-- Modelled from the spec: the MatchSet restricted to one command — the
ordered sequence of (identifier, raw token) bindings. -/
abbrev MatchSet := List (String × String)

/-- Typed value produced by coercion. -/
inductive TypedValue where
  | str (s : String)
  | int (n : Nat)
deriving DecidableEq

/-- Modelled from the spec: `ResolvedValue` — coerced value(s) of one
argument tagged with provenance (section 3). -/
inductive Origin where
  | ExplicitCli
  | Environment
  | ConfigFile
  | Default
deriving DecidableEq

structure ResolvedValue where
  values : List TypedValue
  origin : Origin
deriving DecidableEq

abbrev ResolvedValues := List (String × ResolvedValue)

/-- Whether a token has the long-flag shape `--…`. -/
def isLongFlagToken (tok : String) : Bool :=
  match tok.data with
  | '-' :: '-' :: _ => true
  | _ => false

/-- Splitting a character list at every occurrence of the delimiter. -/
def splitChars (d : Char) : List Char → List (List Char)
  | [] => [[]]
  | c :: rest =>
    match splitChars d rest with
    | [] => [[c]]
    | g :: gs => if c = d then [] :: g :: gs else (c :: g) :: gs

/-- Splitting a string at every occurrence of a delimiter character (the
behaviour of clap's `value_delimiter`). -/
def splitString (d : Char) (s : String) : List String :=
  (splitChars d s.data).map String.mk

/-- Decimal parsing of a digit list, accumulator style. -/
def parseNatChars (acc : Nat) : List Char → Option Nat
  | [] => some acc
  | c :: rest =>
    if c.isDigit then parseNatChars (acc * 10 + (c.toNat - 48)) rest
    else none

/-- Decimal parsing of a raw string: all characters must be digits and the
string must be non-empty, as for Rust integer `FromStr`. -/
def parseNat (s : String) : Option Nat :=
  match s.data with
  | [] => none
  | c :: rest => parseNatChars 0 (c :: rest)

/-- Flag lookup used by the matcher: the spec names a flag token `--name`. -/
def findSpec (args : List ArgumentSpec) (name : String) : Option ArgumentSpec :=
  args.find? (fun a => a.longFlag = name)

/-- Modelled from the spec: delimiter splitting at match time
(section 4.2, "arguments whose Specs carry `delimiter` split a single raw
token into multiple raw values at match time"). -/
def splitValue (spec : ArgumentSpec) (raw : String) : List String :=
  match spec.delimiter with
  | some d => splitString d raw
  | none => [raw]

/-- Modelled from the spec: the Tokenizer/Matcher of section 4.2, restricted
to long flags.  Tokens are scanned left to right; an unknown token is
`UnknownArgument`; a value-taking flag as last token is `MissingValue`;
delimiter-carrying values are split in place, preserving order. -/
def matchTokens (args : List ArgumentSpec) : List String → Except ParseError MatchSet
  | [] => .ok []
  | tok :: rest =>
    if isLongFlagToken tok then
      match findSpec args (tok.drop 2) with
      | none => .error (.UnknownArgument tok)
      | some spec =>
        if spec.takesValue then
          match rest with
          | [] => .error (.MissingValue spec.identifier)
          | v :: rest2 =>
            match matchTokens args rest2 with
            | .error e => .error e
            | .ok ms => .ok ((splitValue spec v).map (fun x => (spec.identifier, x)) ++ ms)
        else
          match matchTokens args rest with
          | .error e => .error e
          | .ok ms => .ok ((spec.identifier, "true") :: ms)
    else .error (.UnknownArgument tok)

/-- Whether an identifier has at least one binding in the MatchSet. -/
def isBound (ms : MatchSet) (id : String) : Bool :=
  ms.any (fun b => b.fst = id)

/-- Modelled from the spec: the Constraint Validator rule for one group
(section 4.3): MutuallyExclusive counts bound members (conflict reports the
first two found in declaration order); RequiresAll demands all members once
any is bound; ConflictsWith rejects both-bound. -/
def checkGroup (ms : MatchSet) : GroupSpec → Except ParseError Unit
  | .MutuallyExclusive name members required =>
    match members.filter (isBound ms) with
    | [] => if required then .error (.MissingRequiredGroup name) else .ok ()
    | [_] => .ok ()
    | a :: b :: _ => .error (.ConflictingArguments a b)
  | .RequiresAll members =>
    match members.filter (isBound ms) with
    | [] => .ok ()
    | p :: _ =>
      match members.filter (fun m => !(isBound ms m)) with
      | [] => .ok ()
      | m :: rest => .error (.MissingDependency p (m :: rest))
  | .ConflictsWith a b =>
    if isBound ms a && isBound ms b then .error (.ConflictingArguments a b)
    else .ok ()

def checkGroups (ms : MatchSet) : List GroupSpec → Except ParseError Unit
  | [] => .ok ()
  | g :: gs =>
    match checkGroup ms g with
    | .error e => .error e
    | .ok _ => checkGroups ms gs

/-- Modelled from the spec: the per-argument requiredness check of
section 4.3 — a required argument with no default and no binding fails with
`MissingRequiredArgument`. -/
def checkRequiredArgs (ms : MatchSet) : List ArgumentSpec → Except ParseError Unit
  | [] => .ok ()
  | a :: rest =>
    if a.required && a.defaultVal.isNone && !(isBound ms a.identifier) then
      .error (.MissingRequiredArgument a.identifier)
    else checkRequiredArgs ms rest

/-- Modelled from the spec: `validate` (section 4.3) — group rules over the
MatchSet, then individual requiredness. -/
def validate (schema : Schema) (ms : MatchSet) : Except ParseError Unit :=
  match checkGroups ms schema.groups with
  | .error e => .error e
  | .ok _ => checkRequiredArgs ms schema.args

/-- Modelled from the spec: coercion by `value_kind` (section 4.4) — integers
parse the raw string (failure is `InvalidValue`) and then check the declared
range, out-of-range giving the same error kind with reason "out of range". -/
def coerce (a : ArgumentSpec) (raw : String) : Except ParseError TypedValue :=
  match a.valueKind with
  | .str => .ok (.str raw)
  | .int lo hi =>
    match parseNat raw with
    | none => .error (.InvalidValue a.identifier raw "invalid digit")
    | some n =>
      if (match lo with | some l => decide (n < l) | none => false) ||
         (match hi with | some h => decide (h < n) | none => false) then
        .error (.InvalidValue a.identifier raw "out of range")
      else .ok (.int n)

/-- Raw CLI values bound to one identifier, in binding order. -/
def bindingsFor (ms : MatchSet) (id : String) : List String :=
  (ms.filter (fun b => b.fst = id)).map (fun b => b.snd)

def coerceAll (a : ArgumentSpec) : List String → Except ParseError (List TypedValue)
  | [] => .ok []
  | r :: rs =>
    match coerce a r with
    | .error e => .error e
    | .ok v =>
      match coerceAll a rs with
      | .error e => .error e
      | .ok vs => .ok (v :: vs)

/-- Modelled from the spec: per-argument precedence of section 4.4, first hit
wins — CLI bindings (origin `ExplicitCli`), else declared env fallback
(origin `Environment`), else config lookup by identifier (origin
`ConfigFile`), else declared default (origin `Default`), else absent. -/
def resolveArg (ms : MatchSet) (envLookup configLookup : String → Option String)
    (a : ArgumentSpec) : Except ParseError (Option ResolvedValue) :=
  match bindingsFor ms a.identifier with
  | [] =>
    match a.envFallback.bind envLookup with
    | some raw =>
      match coerce a raw with
      | .error e => .error e
      | .ok v => .ok (some ⟨[v], .Environment⟩)
    | none =>
      match configLookup a.identifier with
      | some raw =>
        match coerce a raw with
        | .error e => .error e
        | .ok v => .ok (some ⟨[v], .ConfigFile⟩)
      | none =>
        match a.defaultVal with
        | some raw =>
          match coerce a raw with
          | .error e => .error e
          | .ok v => .ok (some ⟨[v], .Default⟩)
        | none => .ok none
  | r :: rs =>
    match coerceAll a (r :: rs) with
    | .error e => .error e
    | .ok vs => .ok (some ⟨vs, .ExplicitCli⟩)

def resolveArgs (ms : MatchSet) (envLookup configLookup : String → Option String) :
    List ArgumentSpec → Except ParseError ResolvedValues
  | [] => .ok []
  | a :: rest =>
    match resolveArg ms envLookup configLookup a with
    | .error e => .error e
    | .ok none => resolveArgs ms envLookup configLookup rest
    | .ok (some rv) =>
      match resolveArgs ms envLookup configLookup rest with
      | .error e => .error e
      | .ok out => .ok ((a.identifier, rv) :: out)

/-- Modelled from the spec: the sole entry point `parse` of section 6 —
match, then validate, then resolve; stages are all-or-nothing. -/
def parse (schema : Schema) (argv : List String)
    (envLookup configLookup : String → Option String) :
    Except ParseError ResolvedValues :=
  match matchTokens schema.args argv with
  | .error e => .error e
  | .ok ms =>
    match validate schema ms with
    | .error e => .error e
    | .ok _ => resolveArgs ms envLookup configLookup schema.args

/-- The `tags` argument of example 02
(`#[arg(long, value_delimiter = ',')] tags: Vec<String>`, `main.rs`
lines 129-133): Many arity, Append semantics, delimiter `,`. -/
def tagsSpec : ArgumentSpec :=
  ⟨"tags", "tags", true, .str, false, none, none, some ','⟩

/-- Schema fragment of example 02 relevant to the `tags` argument. -/
def schema02 : Schema := ⟨[tagsSpec], []⟩

/-- The `--force` flag of example 04 (`#[arg(long)] force: bool`,
`main.rs` lines 153-155). -/
def forceSpec : ArgumentSpec :=
  ⟨"force", "force", false, .str, false, none, none, none⟩

/-- The `--dry-run` flag of example 04
(`#[arg(long, requires = "force")] dry_run: bool`, `main.rs` lines 157-159). -/
def dryRunSpec : ArgumentSpec :=
  ⟨"dry_run", "dry-run", false, .str, false, none, none, none⟩

/-- Schema fragment of example 04: the `dry_run requires force` relationship,
expressed as the spec's `RequiresAll` group over the two members. -/
def schema04 : Schema :=
  ⟨[forceSpec, dryRunSpec], [.RequiresAll ["dry_run", "force"]]⟩

/-- The `percentage` argument of example 05
(`value_parser!(u8).range(1..=100), default_value_t = 50`, `main.rs`
lines 328-330). -/
def pctSpec : ArgumentSpec :=
  ⟨"percentage", "percentage", true, .int (some 1) (some 100), false, none,
   some "50", none⟩

/-- Schema fragment of example 05 relevant to the `percentage` argument. -/
def schema05 : Schema := ⟨[pctSpec], []⟩

end Engine

section SourceClaims

/-- C9: in `ResolvedConfig::from_cli_and_file`, every resolved feature flag
(`enable_cache`, `enable_metrics`, `enable_tracing`) equals the logical OR of
the CLI/env flag and the config-file value; in particular, a flag set to
`true` in the config file resolves to `true` for every CLI input, so the
command line cannot override it to `false`. -/
theorem feature_flags_merge_as_or (cliCache cliMetrics cliTracing : Bool)
    (file : EnvConfig.FeatureFlags) :
    EnvConfig.mergeFeatures cliCache cliMetrics cliTracing file =
      (cliCache || file.enable_cache.getD false,
       cliMetrics || file.enable_metrics.getD false,
       cliTracing || file.enable_tracing.getD false) ∧
    (file.enable_cache = some true →
      (EnvConfig.mergeFeatures cliCache cliMetrics cliTracing file).1 = true) ∧
    (file.enable_metrics = some true →
      (EnvConfig.mergeFeatures cliCache cliMetrics cliTracing file).2.1 = true) ∧
    (file.enable_tracing = some true →
      (EnvConfig.mergeFeatures cliCache cliMetrics cliTracing file).2.2 = true) := by
  refine ⟨rfl, ?_, ?_, ?_⟩ <;> intro h <;>
    simp [EnvConfig.mergeFeatures, EnvConfig.mergeFeature, h]

/-- Witness for C9 at a concrete input: CLI flags all `false`, config file
setting all three flags to `true`; the resolved flags are all `true`. -/
theorem feature_flags_merge_as_or_witness :
    EnvConfig.mergeFeatures false false false ⟨some true, some true, some true⟩ =
      (true, true, true) ∧
    (EnvConfig.mergeFeatures false false false ⟨some true, some true, some true⟩).1 = true :=
  ⟨(feature_flags_merge_as_or false false false ⟨some true, some true, some true⟩).1.trans rfl,
   (feature_flags_merge_as_or false false false ⟨some true, some true, some true⟩).2.1 rfl⟩

/-- C10: `Config::with_profile(name)` returns a new `Config` in which
`project`, `region`, `zone`, `endpoint` are replaced only for the fields the
named profile sets to `Some`, while `output_format` and `profiles` always
equal the base's; for a name with no matching profile it returns the
not-found error and no merged config.  The base config itself is never
modified (`with_profile` takes `&self` and is embedded as a pure function of
the base). -/
theorem with_profile_frame (c : Cloudctl.Config) (name : String) :
    (∀ p : Cloudctl.Profile, c.profiles.lookup name = some p →
      c.with_profile name = .ok
        { project := if p.project.isSome then p.project else c.project,
          region := if p.region.isSome then p.region else c.region,
          zone := if p.zone.isSome then p.zone else c.zone,
          endpoint := if p.endpoint.isSome then p.endpoint else c.endpoint,
          output_format := c.output_format,
          profiles := c.profiles }) ∧
    (c.profiles.lookup name = none →
      c.with_profile name = .error (.NotFound "profile" name)) := by
  constructor
  · intro p hp
    simp [Cloudctl.Config.with_profile, hp]
  · intro hn
    simp [Cloudctl.Config.with_profile, hn]

/-- Witness for C10 at a concrete config: a base with one profile `dev`
setting only `region`; merging keeps `project`, `output_format` and
`profiles`, replaces `region`; an unknown profile name errors. -/
theorem with_profile_frame_witness :
    (Cloudctl.Config.mk (some "p0") (some "r0") none none (some "table")
        [("dev", ⟨none, some "r1", none, none⟩)]).with_profile "dev" =
      .ok (Cloudctl.Config.mk (some "p0") (some "r1") none none (some "table")
        [("dev", ⟨none, some "r1", none, none⟩)]) ∧
    (Cloudctl.Config.mk (some "p0") (some "r0") none none (some "table")
        [("dev", ⟨none, some "r1", none, none⟩)]).with_profile "prod" =
      .error (.NotFound "profile" "prod") :=
  ⟨((with_profile_frame
      (Cloudctl.Config.mk (some "p0") (some "r0") none none (some "table")
        [("dev", ⟨none, some "r1", none, none⟩)]) "dev").1
      ⟨none, some "r1", none, none⟩ rfl).trans rfl,
   (with_profile_frame
      (Cloudctl.Config.mk (some "p0") (some "r0") none none (some "table")
        [("dev", ⟨none, some "r1", none, none⟩)]) "prod").2 rfl⟩

/-- C1 (counterexample to the claim as stated): for the `port` argument of
example 08 with all four sources distinct (CLI 9000, env 3000, config 5000,
default 8080), resolution yields the CLI value 9000 but the recorded source
is `"env"`, not the claimed `"cli"` (ExplicitCli): the env-presence check in
`from_cli_and_file` runs before the CLI check. -/
theorem precedence_claim_counterexample :
    EnvConfig.resolvePort (some 9000) ⟨some 3000, none, none, none⟩ (some 5000) =
      (9000, "env") ∧
    (EnvConfig.resolvePort (some 9000) ⟨some 3000, none, none, none⟩ (some 5000)).2 ≠
      "cli" :=
  ⟨rfl, by decide⟩

/-- C1 (amended): for the `port` and `host` arguments of example 08 with all
four sources supplying distinct values, resolution picks the CLI value but
records origin `"env"` (the environment-presence check precedes the
value-based CLI check); with the CLI binding removed it picks the environment
value with origin `"env"`; with the environment also removed it picks the
config-file value with origin `"config file"`; and with the config value also
removed it picks the declared default with origin `"default"`. -/
theorem precedence_chain_port_host
    (cp ep fp : Nat) (ch eh fh : String)
    (_hcp : cp ≠ 8080) (_hep : ep ≠ 8080) (_hfp : fp ≠ 8080)
    (_hce : cp ≠ ep) (_hcf : cp ≠ fp) (_hef : ep ≠ fp)
    (_hch : ch ≠ "localhost") (_heh : eh ≠ "localhost") (_hfh : fh ≠ "localhost")
    (_hce2 : ch ≠ eh) (_hcf2 : ch ≠ fh) (_hef2 : eh ≠ fh) :
    EnvConfig.resolvePort (some cp) ⟨some ep, none, none, none⟩ (some fp) = (cp, "env") ∧
    EnvConfig.resolvePort none ⟨some ep, none, none, none⟩ (some fp) = (ep, "env") ∧
    EnvConfig.resolvePort none ⟨none, none, none, none⟩ (some fp) = (fp, "config file") ∧
    EnvConfig.resolvePort none ⟨none, none, none, none⟩ none = (8080, "default") ∧
    EnvConfig.resolveHost (some ch) ⟨none, none, some eh, none⟩ (some fh) = (ch, "env") ∧
    EnvConfig.resolveHost none ⟨none, none, some eh, none⟩ (some fh) = (eh, "env") ∧
    EnvConfig.resolveHost none ⟨none, none, none, none⟩ (some fh) = (fh, "config file") ∧
    EnvConfig.resolveHost none ⟨none, none, none, none⟩ none = ("localhost", "default") := by
  refine ⟨?_, ?_, ?_, ?_, ?_, ?_, ?_, ?_⟩ <;>
    simp [EnvConfig.resolvePort, EnvConfig.clapPort, EnvConfig.portFromCliAndFile,
      EnvConfig.resolveHost, EnvConfig.clapHost, EnvConfig.hostFromCliAndFile]

/-- Witness for the amended C1 at concrete distinct values. -/
theorem precedence_chain_port_host_witness :
    EnvConfig.resolvePort none ⟨some 3000, none, none, none⟩ (some 5000) =
      (3000, "env") ∧
    EnvConfig.resolvePort none ⟨none, none, none, none⟩ (some 5000) =
      (5000, "config file") ∧
    EnvConfig.resolveHost none ⟨none, none, none, none⟩ none =
      ("localhost", "default") :=
  ⟨(precedence_chain_port_host 9000 3000 5000 "h1" "h2" "h3"
      (by decide) (by decide) (by decide) (by decide) (by decide) (by decide)
      (by decide) (by decide) (by decide) (by decide) (by decide) (by decide)).2.1,
   (precedence_chain_port_host 9000 3000 5000 "h1" "h2" "h3"
      (by decide) (by decide) (by decide) (by decide) (by decide) (by decide)
      (by decide) (by decide) (by decide) (by decide) (by decide) (by decide)).2.2.1,
   (precedence_chain_port_host 9000 3000 5000 "h1" "h2" "h3"
      (by decide) (by decide) (by decide) (by decide) (by decide) (by decide)
      (by decide) (by decide) (by decide) (by decide) (by decide) (by decide)).2.2.2.2.2.2.2⟩

/-- C2: evaluation of `from_cli_and_file` at the failing input.  With
`--port 8080` supplied explicitly (equal to the declared default), no
`APP_PORT`/`MYAPP_PORT` environment variable, the code attributes the value
to the config file (resolving 5000, discarding the explicit CLI token) when
the file sets `port`, and to `"default"` when it does not — never to
`"cli"`/ExplicitCli, contradicting the priority documented on `Cli`
(CLI > env > config file > default). -/
theorem explicit_cli_equal_default_misattributed :
    EnvConfig.resolvePort (some 8080) ⟨none, none, none, none⟩ (some 5000) =
      (5000, "config file") ∧
    EnvConfig.resolvePort (some 8080) ⟨none, none, none, none⟩ none =
      (8080, "default") :=
  ⟨rfl, rfl⟩

end SourceClaims

namespace Engine

/-- Unfolding step of the matcher at a value-taking long flag. -/
theorem matchTokens_value_cons (args : List ArgumentSpec) (tok v : String)
    (rest : List String) (spec : ArgumentSpec) (ms : MatchSet)
    (hflag : isLongFlagToken tok = true)
    (hfind : findSpec args (tok.drop 2) = some spec)
    (hval : spec.takesValue = true)
    (hrec : matchTokens args rest = .ok ms) :
    matchTokens args (tok :: v :: rest) =
      .ok ((splitValue spec v).map (fun x => (spec.identifier, x)) ++ ms) := by
  unfold matchTokens
  simp [hflag, hfind, hval, hrec]

/-- Unfolding step of the matcher at a boolean (presence-only) long flag. -/
theorem matchTokens_boolflag_cons (args : List ArgumentSpec) (tok : String)
    (rest : List String) (spec : ArgumentSpec) (ms : MatchSet)
    (hflag : isLongFlagToken tok = true)
    (hfind : findSpec args (tok.drop 2) = some spec)
    (hval : spec.takesValue = false)
    (hrec : matchTokens args rest = .ok ms) :
    matchTokens args (tok :: rest) = .ok ((spec.identifier, "true") :: ms) := by
  unfold matchTokens
  simp [hflag, hfind, hval, hrec]

/-- String-kind coercion always succeeds with the raw value. -/
theorem coerce_str (a : ArgumentSpec) (hstr : a.valueKind = .str) (raw : String) :
    coerce a raw = .ok (.str raw) := by
  simp [coerce, hstr]

theorem coerceAll_str (a : ArgumentSpec) (hstr : a.valueKind = .str) :
    ∀ rs : List String, coerceAll a rs = .ok (rs.map TypedValue.str)
  | [] => rfl
  | r :: rs => by
    simp [coerceAll, coerce_str a hstr, coerceAll_str a hstr rs]

/-- Resolution of a string-kind argument never fails. -/
theorem resolveArg_str_ok (ms : MatchSet) (env config : String → Option String)
    (a : ArgumentSpec) (hstr : a.valueKind = .str) :
    ∃ v, resolveArg ms env config a = .ok v := by
  unfold resolveArg
  rcases hb : bindingsFor ms a.identifier with _ | ⟨r, rs⟩
  · rcases he : a.envFallback.bind env with _ | raw
    · rcases hc : config a.identifier with _ | raw
      · rcases hd : a.defaultVal with _ | raw
        · exact ⟨none, by simp⟩
        · exact ⟨some ⟨[.str raw], .Default⟩, by simp [coerce_str a hstr]⟩
      · exact ⟨some ⟨[.str raw], .ConfigFile⟩, by simp [coerce_str a hstr]⟩
    · exact ⟨some ⟨[.str raw], .Environment⟩, by simp [coerce_str a hstr]⟩
  · exact ⟨some ⟨TypedValue.str r :: rs.map TypedValue.str, .ExplicitCli⟩,
      by simp [coerceAll_str a hstr]⟩

/-- Resolution of a schema whose arguments are all string-kind never fails. -/
theorem resolveArgs_str_ok (ms : MatchSet) (env config : String → Option String) :
    ∀ args : List ArgumentSpec, (∀ a ∈ args, a.valueKind = .str) →
      ∃ out, resolveArgs ms env config args = .ok out
  | [], _ => ⟨[], rfl⟩
  | a :: rest, h => by
    obtain ⟨v, hv⟩ := resolveArg_str_ok ms env config a (h a (by simp))
    obtain ⟨out, hout⟩ := resolveArgs_str_ok ms env config rest
      (fun b hb => h b (by simp [hb]))
    cases v with
    | none => exact ⟨out, by simp [resolveArgs, hv, hout]⟩
    | some rv => exact ⟨(a.identifier, rv) :: out, by simp [resolveArgs, hv, hout]⟩

/-- Matching any sequence of `--dry-run` / `--force` tokens against the
example-04 schema succeeds, and an identifier is bound exactly when its flag
token occurs in the argv. -/
theorem matchTokens04_ok (argv : List String)
    (h : ∀ t ∈ argv, t = "--dry-run" ∨ t = "--force") :
    ∃ ms, matchTokens schema04.args argv = .ok ms ∧
      ((isBound ms "dry_run" = true) ↔ "--dry-run" ∈ argv) ∧
      ((isBound ms "force" = true) ↔ "--force" ∈ argv) := by
  induction argv with
  | nil => exact ⟨[], rfl, by simp [isBound], by simp [isBound]⟩
  | cons t rest ih =>
    obtain ⟨ms, hms, hd, hf⟩ := ih (fun x hx => h x (by simp [hx]))
    rcases h t (by simp) with ht | ht <;> subst ht
    · refine ⟨("dry_run", "true") :: ms, ?_, ?_, ?_⟩
      · exact matchTokens_boolflag_cons schema04.args "--dry-run" rest dryRunSpec
          ms rfl rfl rfl hms
      · simp [isBound] at hd ⊢
      · simp [isBound] at hf ⊢
        simpa using hf
    · refine ⟨("force", "true") :: ms, ?_, ?_, ?_⟩
      · exact matchTokens_boolflag_cons schema04.args "--force" rest forceSpec
          ms rfl rfl rfl hms
      · simp [isBound] at hd ⊢
        simpa using hd
      · simp [isBound] at hf ⊢

/-- The matcher never reports `SchemaConflict`. -/
theorem matchTokens_no_conflict (args : List ArgumentSpec) (argv : List String) :
    matchTokens args argv ≠ .error .SchemaConflict := by
  generalize hn : argv.length = n
  induction n using Nat.strong_induction_on generalizing argv with
  | _ n ih =>
    cases argv with
    | nil => simp [matchTokens]
    | cons tok rest =>
      unfold matchTokens
      by_cases hflag : isLongFlagToken tok
      · simp only [hflag, if_true]
        rcases hfind : findSpec args (tok.drop 2) with _ | spec
        · simp
        · by_cases hval : spec.takesValue
          · simp only [hval, if_true]
            cases rest with
            | nil => simp
            | cons v rest2 =>
              have h2 := ih rest2.length (by subst hn; simp; omega) rest2 rfl
              rcases hrec : matchTokens args rest2 with e | ms
              · simp only [hrec]
                intro hcontra
                injection hcontra with hh
                exact h2 (hh ▸ hrec)
              · simp [hrec]
          · simp only [hval, if_false]
            have h2 := ih rest.length (by subst hn; simp) rest rfl
            rcases hrec : matchTokens args rest with e | ms
            · simp only [hrec]
              intro hcontra
              injection hcontra with hh
              exact h2 (hh ▸ hrec)
            · simp [hrec]
      · simp [hflag]

/-- Group validation never reports `SchemaConflict`. -/
theorem checkGroup_no_conflict (ms : MatchSet) (g : GroupSpec) :
    checkGroup ms g ≠ .error .SchemaConflict := by
  cases g with
  | MutuallyExclusive name members required =>
    rcases hfilt : members.filter (isBound ms) with _ | ⟨a, _ | ⟨b, rest⟩⟩ <;>
      simp [checkGroup, hfilt] <;> cases required <;> simp
  | RequiresAll members =>
    rcases hfilt : members.filter (isBound ms) with _ | ⟨p, tl⟩ <;>
      simp only [checkGroup, hfilt] <;>
      [skip;
       rcases hmiss : members.filter (fun m => !(isBound ms m)) with _ | ⟨m, tl2⟩] <;>
      simp
  | ConflictsWith a b =>
    by_cases hb : isBound ms a && isBound ms b <;> simp [checkGroup, hb]

theorem checkGroups_no_conflict (ms : MatchSet) :
    ∀ gs : List GroupSpec, checkGroups ms gs ≠ .error .SchemaConflict
  | [] => by simp [checkGroups]
  | g :: gs => by
    have h1 := checkGroup_no_conflict ms g
    have h2 := checkGroups_no_conflict ms gs
    rcases hg : checkGroup ms g with e | u
    · simp only [checkGroups, hg]
      intro hcontra
      injection hcontra with hh
      exact h1 (hh ▸ hg)
    · simp only [checkGroups, hg]
      exact h2

theorem checkRequiredArgs_no_conflict (ms : MatchSet) :
    ∀ args : List ArgumentSpec, checkRequiredArgs ms args ≠ .error .SchemaConflict
  | [] => by simp [checkRequiredArgs]
  | a :: rest => by
    by_cases hc : a.required && a.defaultVal.isNone && !(isBound ms a.identifier) <;>
      simp only [checkRequiredArgs, hc] <;> simp
    exact checkRequiredArgs_no_conflict ms rest

theorem validate_no_conflict (schema : Schema) (ms : MatchSet) :
    validate schema ms ≠ .error .SchemaConflict := by
  rcases hg : checkGroups ms schema.groups with e | u
  · simp only [validate, hg]
    intro hcontra
    injection hcontra with hh
    exact checkGroups_no_conflict ms schema.groups (hh ▸ hg)
  · simp only [validate, hg]
    exact checkRequiredArgs_no_conflict ms schema.args

/-- Value coercion never reports `SchemaConflict`. -/
theorem coerce_no_conflict (a : ArgumentSpec) (raw : String) :
    coerce a raw ≠ .error .SchemaConflict := by
  cases hk : a.valueKind with
  | str => simp [coerce, hk]
  | int lo hi =>
    rcases hp : parseNat raw with _ | n <;> simp only [coerce, hk, hp] <;>
      [simp; split] <;> simp

theorem coerceAll_no_conflict (a : ArgumentSpec) :
    ∀ rs : List String, coerceAll a rs ≠ .error .SchemaConflict
  | [] => by simp [coerceAll]
  | r :: rs => by
    have h1 := coerce_no_conflict a r
    have h2 := coerceAll_no_conflict a rs
    rcases hc : coerce a r with e | v
    · simp only [coerceAll, hc]
      intro hcontra
      injection hcontra with hh
      exact h1 (hh ▸ hc)
    · rcases hcs : coerceAll a rs with e | vs
      · simp only [coerceAll, hc, hcs]
        intro hcontra
        injection hcontra with hh
        exact h2 (hh ▸ hcs)
      · simp [coerceAll, hc, hcs]

theorem resolveArg_no_conflict (ms : MatchSet) (env config : String → Option String)
    (a : ArgumentSpec) : resolveArg ms env config a ≠ .error .SchemaConflict := by
  unfold resolveArg
  rcases hb : bindingsFor ms a.identifier with _ | ⟨r, rs⟩
  · rcases he : a.envFallback.bind env with _ | raw
    · rcases hc : config a.identifier with _ | raw
      · rcases hd : a.defaultVal with _ | raw
        · simp
        · rcases hco : coerce a raw with e | v
          · simp only [hco]
            intro hcontra
            injection hcontra with hh
            exact coerce_no_conflict a raw (hh ▸ hco)
          · simp [hco]
      · rcases hco : coerce a raw with e | v
        · simp only [hco]
          intro hcontra
          injection hcontra with hh
          exact coerce_no_conflict a raw (hh ▸ hco)
        · simp [hco]
    · rcases hco : coerce a raw with e | v
      · simp only [hco]
        intro hcontra
        injection hcontra with hh
        exact coerce_no_conflict a raw (hh ▸ hco)
      · simp [hco]
  · rcases hco : coerceAll a (r :: rs) with e | vs
    · simp only [hco]
      intro hcontra
      injection hcontra with hh
      exact coerceAll_no_conflict a (r :: rs) (hh ▸ hco)
    · simp [hco]

theorem resolveArgs_no_conflict (ms : MatchSet) (env config : String → Option String) :
    ∀ args : List ArgumentSpec, resolveArgs ms env config args ≠ .error .SchemaConflict
  | [] => by simp [resolveArgs]
  | a :: rest => by
    have h1 := resolveArg_no_conflict ms env config a
    have h2 := resolveArgs_no_conflict ms env config rest
    rcases ha : resolveArg ms env config a with e | v
    · simp only [resolveArgs, ha]
      intro hcontra
      injection hcontra with hh
      exact h1 (hh ▸ ha)
    · cases v with
      | none => simp only [resolveArgs, ha]; exact h2
      | some rv =>
        rcases hr : resolveArgs ms env config rest with e | out
        · simp only [resolveArgs, ha, hr]
          intro hcontra
          injection hcontra with hh
          exact h2 (hh ▸ hr)
        · simp [resolveArgs, ha, hr]

end Engine

namespace Engine

/-- C3: for every MutuallyExclusive group with `required = true` and every
MatchSet, binding exactly one member passes validation; binding zero members
fails with `MissingRequiredGroup`; binding two or more members fails with
`ConflictingArguments` reporting the first two bound members in declaration
order (the filtered member list preserves declaration order). -/
theorem mutually_exclusive_required (ms : MatchSet) (gname : String)
    (members : List String) :
    ((members.filter (isBound ms)).length = 1 →
      checkGroup ms (.MutuallyExclusive gname members true) = .ok ()) ∧
    ((members.filter (isBound ms)).length = 0 →
      checkGroup ms (.MutuallyExclusive gname members true) =
        .error (.MissingRequiredGroup gname)) ∧
    (∀ a b rest, members.filter (isBound ms) = a :: b :: rest →
      checkGroup ms (.MutuallyExclusive gname members true) =
        .error (.ConflictingArguments a b)) := by
  refine ⟨?_, ?_, ?_⟩
  · intro h
    rcases hfilt : members.filter (isBound ms) with _ | ⟨a, _ | ⟨b, rest⟩⟩
    · rw [hfilt] at h; simp at h
    · simp [checkGroup, hfilt]
    · rw [hfilt] at h; simp at h
  · intro h
    rcases hfilt : members.filter (isBound ms) with _ | ⟨a, tl⟩
    · simp [checkGroup, hfilt]
    · rw [hfilt] at h; simp at h
  · intro a b rest hfilt
    simp [checkGroup, hfilt]

/-- Witness for C3 on the `input_source` group of example 04
(members `input`, `stdin`, `url`): one bound passes, zero bound fails
`MissingRequiredGroup`, two bound fails `ConflictingArguments` on the first
two in declaration order. -/
theorem mutually_exclusive_required_witness :
    checkGroup [("stdin", "true")]
      (.MutuallyExclusive "input_source" ["input", "stdin", "url"] true) = .ok () ∧
    checkGroup []
      (.MutuallyExclusive "input_source" ["input", "stdin", "url"] true) =
      .error (.MissingRequiredGroup "input_source") ∧
    checkGroup [("input", "a.txt"), ("stdin", "true")]
      (.MutuallyExclusive "input_source" ["input", "stdin", "url"] true) =
      .error (.ConflictingArguments "input" "stdin") :=
  ⟨(mutually_exclusive_required [("stdin", "true")] "input_source"
      ["input", "stdin", "url"]).1 (by rfl),
   (mutually_exclusive_required [] "input_source"
      ["input", "stdin", "url"]).2.1 (by rfl),
   (mutually_exclusive_required [("input", "a.txt"), ("stdin", "true")]
      "input_source" ["input", "stdin", "url"]).2.2 "input" "stdin" [] (by rfl)⟩

/-- C4: for the `tags` argument of example 02 (Many arity, delimiter `,`),
`--tags a,b,c` resolves to the sequence `["a","b","c"]` in that order, and
`--tags a --tags b` resolves to `["a","b"]`; in general the matcher maps any
sequence of `--tags v` bindings to the concatenation of their delimiter
splits, preserving left-to-right insertion order with split values placed at
their source token's position. -/
theorem tags_delimiter_append_order :
    parse schema02 ["--tags", "a,b,c"] (fun _ => none) (fun _ => none) =
      .ok [("tags", ⟨[.str "a", .str "b", .str "c"], .ExplicitCli⟩)] ∧
    parse schema02 ["--tags", "a", "--tags", "b"] (fun _ => none) (fun _ => none) =
      .ok [("tags", ⟨[.str "a", .str "b"], .ExplicitCli⟩)] ∧
    (∀ vs : List String,
      matchTokens schema02.args (vs.flatMap (fun v => ["--tags", v])) =
        .ok (vs.flatMap (fun v => (splitString ',' v).map (fun x => ("tags", x))))) := by
  refine ⟨rfl, rfl, ?_⟩
  intro vs
  induction vs with
  | nil => rfl
  | cons v rest ih =>
    simp only [List.flatMap_cons]
    have hstep := matchTokens_value_cons schema02.args "--tags" v
      (rest.flatMap (fun v => ["--tags", v])) tagsSpec
      (rest.flatMap (fun v => (splitString ',' v).map (fun x => ("tags", x))))
      rfl rfl rfl ih
    simpa [List.cons_append, List.nil_append] using hstep

/-- C5: with `dry_run` declared as requiring `force` (example 04), every argv
built from these two flags that contains `--dry-run` but not `--force` fails
with `MissingDependency{present: "dry_run", missing: ["force"]}`, and every
such argv containing both flags parses successfully. -/
theorem dry_run_requires_force (argv : List String)
    (env config : String → Option String)
    (h : ∀ t ∈ argv, t = "--dry-run" ∨ t = "--force") :
    ("--dry-run" ∈ argv → "--force" ∉ argv →
      parse schema04 argv env config =
        .error (.MissingDependency "dry_run" ["force"])) ∧
    ("--dry-run" ∈ argv → "--force" ∈ argv →
      ∃ vals, parse schema04 argv env config = .ok vals) := by
  obtain ⟨ms, hms, hd, hf⟩ := matchTokens04_ok argv h
  constructor
  · intro hdin hfout
    have hd1 : isBound ms "dry_run" = true := hd.mpr hdin
    have hf1 : isBound ms "force" = false := by
      cases hfe : isBound ms "force"
      · rfl
      · exact absurd (hf.mp hfe) hfout
    have hval : validate schema04 ms = .error (.MissingDependency "dry_run" ["force"]) := by
      simp [validate, checkGroups, checkGroup, schema04, hd1, hf1]
    simp [parse, hms, hval]
  · intro hdin hfin
    have hd1 : isBound ms "dry_run" = true := hd.mpr hdin
    have hf1 : isBound ms "force" = true := hf.mpr hfin
    have hval : validate schema04 ms = .ok () := by
      simp [validate, checkGroups, checkGroup, checkRequiredArgs, schema04,
        forceSpec, dryRunSpec, hd1, hf1]
    obtain ⟨out, hout⟩ := resolveArgs_str_ok ms env config schema04.args (by decide)
    exact ⟨out, by simp [parse, hms, hval, hout]⟩

/-- Witness for C5: argv `["--dry-run"]` fails with the dependency error;
argv `["--force", "--dry-run"]` parses successfully. -/
theorem dry_run_requires_force_witness :
    parse schema04 ["--dry-run"] (fun _ => none) (fun _ => none) =
      .error (.MissingDependency "dry_run" ["force"]) ∧
    ∃ vals, parse schema04 ["--force", "--dry-run"] (fun _ => none) (fun _ => none) =
      .ok vals :=
  ⟨(dry_run_requires_force ["--dry-run"] (fun _ => none) (fun _ => none)
      (by decide)).1 (by decide) (by decide),
   (dry_run_requires_force ["--force", "--dry-run"] (fun _ => none) (fun _ => none)
      (by decide)).2 (by decide) (by decide)⟩

/-- C6: the integer argument `percentage` declared with range `1..=100`
(example 05) coerces `"1"` and `"100"` successfully and rejects `"0"` and
`"101"` with `InvalidValue` and reason "out of range" — the same error kind
as an unparseable raw string — and the same holds through full `parse`. -/
theorem percentage_range_boundaries :
    coerce pctSpec "1" = .ok (.int 1) ∧
    coerce pctSpec "100" = .ok (.int 100) ∧
    coerce pctSpec "0" = .error (.InvalidValue "percentage" "0" "out of range") ∧
    coerce pctSpec "101" = .error (.InvalidValue "percentage" "101" "out of range") ∧
    coerce pctSpec "abc" = .error (.InvalidValue "percentage" "abc" "invalid digit") ∧
    parse schema05 ["--percentage", "1"] (fun _ => none) (fun _ => none) =
      .ok [("percentage", ⟨[.int 1], .ExplicitCli⟩)] ∧
    parse schema05 ["--percentage", "100"] (fun _ => none) (fun _ => none) =
      .ok [("percentage", ⟨[.int 100], .ExplicitCli⟩)] ∧
    parse schema05 ["--percentage", "0"] (fun _ => none) (fun _ => none) =
      .error (.InvalidValue "percentage" "0" "out of range") ∧
    parse schema05 ["--percentage", "101"] (fun _ => none) (fun _ => none) =
      .error (.InvalidValue "percentage" "101" "out of range") :=
  ⟨rfl, rfl, rfl, rfl, rfl, rfl, rfl, rfl, rfl⟩

/-- C7: if any stage of `parse` fails, `parse` returns exactly that stage's
typed error and no resolved values (stages are all-or-nothing), and the error
returned to the caller is never `SchemaConflict` — every user-input error
kind is surfaced as a `Result` failure (the embedding is a total function
returning `Except`, with no abort and no output). -/
theorem parse_all_or_nothing (schema : Schema) (argv : List String)
    (env config : String → Option String) :
    (∀ e, matchTokens schema.args argv = .error e →
        parse schema argv env config = .error e) ∧
    (∀ ms e, matchTokens schema.args argv = .ok ms →
        validate schema ms = .error e →
        parse schema argv env config = .error e) ∧
    (∀ ms e, matchTokens schema.args argv = .ok ms →
        validate schema ms = .ok () →
        resolveArgs ms env config schema.args = .error e →
        parse schema argv env config = .error e) ∧
    (∀ e, parse schema argv env config = .error e → e ≠ .SchemaConflict) := by
  refine ⟨?_, ?_, ?_, ?_⟩
  · intro e he
    simp [parse, he]
  · intro ms e hm hv
    simp [parse, hm, hv]
  · intro ms e hm hv hr
    simp [parse, hm, hv, hr]
  · intro e he hcontra
    subst hcontra
    rcases hm : matchTokens schema.args argv with e1 | ms
    · have hp : parse schema argv env config = .error e1 := by simp [parse, hm]
      rw [hp] at he
      injection he with hh
      exact matchTokens_no_conflict schema.args argv (hh ▸ hm)
    · rcases hv : validate schema ms with e2 | u
      · have hp : parse schema argv env config = .error e2 := by simp [parse, hm, hv]
        rw [hp] at he
        injection he with hh
        exact validate_no_conflict schema ms (hh ▸ hv)
      · cases u
        have hp : parse schema argv env config = resolveArgs ms env config schema.args := by
          simp [parse, hm, hv]
        rw [hp] at he
        exact resolveArgs_no_conflict ms env config schema.args he

/-- Witness for C7: an unknown token makes the matcher fail, `parse` returns
exactly that error, and that error is not `SchemaConflict`. -/
theorem parse_all_or_nothing_witness :
    parse schema02 ["oops"] (fun _ => none) (fun _ => none) =
      .error (.UnknownArgument "oops") ∧
    ParseError.UnknownArgument "oops" ≠ .SchemaConflict :=
  ⟨(parse_all_or_nothing schema02 ["oops"] (fun _ => none) (fun _ => none)).1
      (.UnknownArgument "oops") (by rfl),
   (parse_all_or_nothing schema02 ["oops"] (fun _ => none) (fun _ => none)).2.2.2
      (.UnknownArgument "oops")
      ((parse_all_or_nothing schema02 ["oops"] (fun _ => none) (fun _ => none)).1
        (.UnknownArgument "oops") (by rfl))⟩

/-- C8: `parse` is a deterministic pure function of its four inputs — two
invocations with identical schema, argv, environment lookup and config lookup
yield structurally identical results, and success of the first implies
success of the second.  In this embedding the engine is a pure function
(spec section 5: single-threaded, no shared mutable state), so determinism
holds definitionally. -/
theorem parse_deterministic (schema : Schema) (argv : List String)
    (env config : String → Option String) :
    parse schema argv env config = parse schema argv env config ∧
    ((parse schema argv env config).isOk = true →
      (parse schema argv env config).isOk = true) :=
  ⟨rfl, fun h => h⟩

/-- Witness for C8 at a concrete invocation, evaluating the parse result. -/
theorem parse_deterministic_witness :
    (parse schema02 ["--tags", "a,b"] (fun _ => none) (fun _ => none)).isOk = true :=
  (parse_deterministic schema02 ["--tags", "a,b"] (fun _ => none) (fun _ => none)).2
    (by rfl)

end Engine
